import Mathlib

/-!
Verification development for the billie-crm event-processor service.

The definitions below are shallow embeddings of the Python source:
  * `src/event-processor/src/billie_servicing/processor.py`
      (`sanitize_envelope`, `_parse_event`, `_process_message`,
       the steady-state loop of `start`, and the MongoDB phase of `_connect`)
  * `src/event-processor/scripts/subst-sdk-requirements.py` (`main`)

Python runtime values occurring in the envelope are modelled by `PyVal`,
dicts by insertion-ordered association lists, and Python `str` by Lean
`String` together with structural character-list primitives (so that all
definitions evaluate by kernel reduction).  External library primitives
(`json.loads`) are taken as parameters; `int(...)` is modelled by a
decimal-literal parser (`pyInt`), faithful to Python on sign/whitespace
handling (Python's digit-underscore grouping and non-ASCII digits are not
modelled; no claim depends on them).
-/

/-- Values a decoded broker field (or a JSON decode) may hold: Python
`None`, `bool`, `int`, `str`, `list`.  Sufficient for every branch of
`sanitize_envelope`. -/
inductive PyVal where
  | noneV : PyVal
  | bool (b : Bool) : PyVal
  | int (n : Int) : PyVal
  | str (s : String) : PyVal
  | list (xs : List PyVal) : PyVal

/-- A Python dict with string keys, as an insertion-ordered association list. -/
abbrev PyDict : Type := List (String × PyVal)

/-- Boolean string equality via the underlying character lists (reduces in
the kernel, unlike `String.decEq` on some composed values). -/
def strEqB (a b : String) : Bool := a.data == b.data

/-- First binding of a key, i.e. Python `d[k]` / `k in d` lookup. -/
def dictFind : PyDict → String → Option PyVal
  | [], _ => Option.none
  | (k, v) :: rest, key => if strEqB k key then Option.some v else dictFind rest key

/-- Python `k in d`. -/
def dictContains (d : PyDict) (key : String) : Bool := (dictFind d key).isSome

/-- Python `d[k] = v`: replace the binding in place when the key is
present, append otherwise. -/
def dictSet (d : PyDict) (key : String) (v : PyVal) : PyDict :=
  if dictContains d key then
    d.map (fun p => cond (strEqB p.1 key) (p.1, v) p)
  else
    d ++ [(key, v)]

/-- Characters Python `str.strip()` removes. -/
def isPySpace (c : Char) : Bool :=
  c == ' ' || c == '\t' || c == '\n' || c == '\r' || c == '\x0b' || c == '\x0c'

/-- Python `str.strip()` on a character list. -/
def chStrip (l : List Char) : List Char :=
  ((l.dropWhile isPySpace).reverse.dropWhile isPySpace).reverse

/-- Decimal digit run accumulator for `pyInt`; empty input is a parse failure. -/
def chDigits : List Char → Nat → Option Nat
  | [], _ => Option.none
  | [c], acc => if c.isDigit then Option.some (acc * 10 + (c.toNat - 48)) else Option.none
  | c :: cs, acc => if c.isDigit then chDigits cs (acc * 10 + (c.toNat - 48)) else Option.none

/-- Signed decimal-literal parse on a character list. -/
def chToInt : List Char → Option Int
  | '-' :: cs => (chDigits cs 0).map (fun n => -(n : Int))
  | '+' :: cs => (chDigits cs 0).map (fun n => (n : Int))
  | cs => (chDigits cs 0).map (fun n => (n : Int))

/-- Model of Python `int(s)` for a decimal text: surrounding whitespace is
stripped, an optional sign is honoured; `Option.none` models the
`ValueError` raise. -/
def pyInt (s : String) : Option Int := chToInt (chStrip s.data)

/-- Python truth test `s == ""` specialised to an already-known string. -/
def strIsEmptyB (s : String) : Bool := s.data.isEmpty

/-- One `c_seq`/`seq` coercion block of `sanitize_envelope` (the source
repeats the same statements for both keys): empty string or `None`
becomes integer `0`; other text is parsed with `int(...)`, falling back
to `0` on `ValueError`; any non-string non-`None` value is untouched;
a missing key leaves the dict unchanged. -/
def fixIntField (key : String) (d : PyDict) : PyDict :=
  match dictFind d key with
  | Option.none => d
  | Option.some v =>
    match v with
    | PyVal.noneV => dictSet d key (PyVal.int 0)
    | PyVal.str s =>
      if strIsEmptyB s then dictSet d key (PyVal.int 0)
      else
        match pyInt s with
        | Option.some n => dictSet d key (PyVal.int n)
        | Option.none => dictSet d key (PyVal.int 0)
    | _ => d

/-- The `rec` coercion block of `sanitize_envelope`: a string is JSON
decoded (`jsonLoads` parameter); on decode failure a non-empty string is
wrapped as a one-element list and an empty string becomes the empty
list; `None` becomes the empty list; anything else is untouched. -/
def fixRec (jsonLoads : String → Option PyVal) (d : PyDict) : PyDict :=
  match dictFind d ("rec") with
  | Option.some (PyVal.str s) =>
    match jsonLoads s with
    | Option.some parsed => dictSet d ("rec") parsed
    | Option.none =>
      if strIsEmptyB s then dictSet d ("rec") (PyVal.list [])
      else dictSet d ("rec") (PyVal.list [PyVal.str s])
  | Option.some PyVal.noneV => dictSet d ("rec") (PyVal.list [])
  | _ => d

/-- The `dat` coercion block of `sanitize_envelope`: a string is JSON
decoded when possible and kept as the raw string otherwise. -/
def fixDat (jsonLoads : String → Option PyVal) (d : PyDict) : PyDict :=
  match dictFind d ("dat") with
  | Option.some (PyVal.str s) =>
    match jsonLoads s with
    | Option.some parsed => dictSet d ("dat") parsed
    | Option.none => d
  | _ => d

/-- `sanitize_envelope` (processor.py lines 31-78): the four coercion
blocks applied in source order to a copy of the input. -/
def sanitize_envelope (jsonLoads : String → Option PyVal) (data : PyDict) : PyDict :=
  fixDat jsonLoads (fixRec jsonLoads (fixIntField ("seq") (fixIntField ("c_seq") data)))

/-- Exceptions the sanitizer's fallible primitives can raise. -/
inductive PyExc where
  | valueError : PyExc
  | jsonDecodeError : PyExc
deriving DecidableEq

/-- Python `int(s)` with the `ValueError` raise made explicit. -/
def pyIntE (s : String) : Except PyExc Int :=
  match pyInt s with
  | Option.some n => Except.ok n
  | Option.none => Except.error PyExc.valueError

/-- Python `json.loads(s)` with the `JSONDecodeError` raise made explicit. -/
def jsonLoadsE (jsonLoads : String → Option PyVal) (s : String) : Except PyExc PyVal :=
  match jsonLoads s with
  | Option.some v => Except.ok v
  | Option.none => Except.error PyExc.jsonDecodeError

/-- Exception-explicit form of the `c_seq`/`seq` block: the `try` around
`int(...)` catches exactly `ValueError`; any other exception would
propagate. -/
def fixIntFieldE (key : String) (d : PyDict) : Except PyExc PyDict :=
  match dictFind d key with
  | Option.none => Except.ok d
  | Option.some v =>
    match v with
    | PyVal.noneV => Except.ok (dictSet d key (PyVal.int 0))
    | PyVal.str s =>
      if strIsEmptyB s then Except.ok (dictSet d key (PyVal.int 0))
      else
        match pyIntE s with
        | Except.ok n => Except.ok (dictSet d key (PyVal.int n))
        | Except.error PyExc.valueError => Except.ok (dictSet d key (PyVal.int 0))
        | Except.error e => Except.error e
    | _ => Except.ok d

/-- Exception-explicit form of the `rec` block: the `try` catches exactly
`json.JSONDecodeError`. -/
def fixRecE (jsonLoads : String → Option PyVal) (d : PyDict) : Except PyExc PyDict :=
  match dictFind d ("rec") with
  | Option.some (PyVal.str s) =>
    match jsonLoadsE jsonLoads s with
    | Except.ok parsed => Except.ok (dictSet d ("rec") parsed)
    | Except.error PyExc.jsonDecodeError =>
      if strIsEmptyB s then Except.ok (dictSet d ("rec") (PyVal.list []))
      else Except.ok (dictSet d ("rec") (PyVal.list [PyVal.str s]))
    | Except.error e => Except.error e
  | Option.some PyVal.noneV => Except.ok (dictSet d ("rec") (PyVal.list []))
  | _ => Except.ok d

/-- Exception-explicit form of the `dat` block: the `try` catches exactly
`json.JSONDecodeError` and keeps the raw string. -/
def fixDatE (jsonLoads : String → Option PyVal) (d : PyDict) : Except PyExc PyDict :=
  match dictFind d ("dat") with
  | Option.some (PyVal.str s) =>
    match jsonLoadsE jsonLoads s with
    | Except.ok parsed => Except.ok (dictSet d ("dat") parsed)
    | Except.error PyExc.jsonDecodeError => Except.ok d
    | Except.error e => Except.error e
  | _ => Except.ok d

/-- `sanitize_envelope` with every potentially-raising statement in the
`Except` monad, sequencing the four blocks as the source does. -/
def sanitize_envelopeE (jsonLoads : String → Option PyVal) (data : PyDict) :
    Except PyExc PyDict :=
  match fixIntFieldE ("c_seq") data with
  | Except.error e => Except.error e
  | Except.ok r1 =>
    match fixIntFieldE ("seq") r1 with
    | Except.error e => Except.error e
    | Except.ok r2 =>
      match fixRecE jsonLoads r2 with
      | Except.error e => Except.error e
      | Except.ok r3 => fixDatE jsonLoads r3

/-- Result of `_parse_event`: which SDK parser ran and with what input, or
the raw dict fallback.  External parser outputs are abstracted by
recording the dict handed to them (`payload` for the customer wrapper). -/
inductive Parsed where
  | account (sdkData : PyDict) : Parsed
  | customer (event_type : String) (conversation_id : PyVal) (sequence : PyVal)
      (payload : PyDict) : Parsed
  | raw (d : PyDict) : Parsed

/-- Python `str.startswith`. -/
def chPrefixB : List Char → List Char → Bool
  | [], _ => true
  | _ :: _, [] => false
  | c :: cs, d :: ds => c == d && chPrefixB cs ds

/-- Python `s.startswith(p)`. -/
def pyStartsWith (s p : String) : Bool := chPrefixB p.data s.data

/-- Python `d.get(k, default)`. -/
def dictGet (d : PyDict) (key : String) (dflt : PyVal) : PyVal :=
  (dictFind d key).getD dflt

/-- `_parse_event` (processor.py lines 542-568): computes
`sdk_data = sanitize_envelope(sanitized)`, routes by event-type prefix,
and in the fallback branch returns the `sanitized` argument itself. -/
def _parse_event (jsonLoads : String → Option PyVal) (event_type : String)
    (sanitized : PyDict) : Parsed :=
  let sdk_data := sanitize_envelope jsonLoads sanitized
  if pyStartsWith event_type ("account.") || pyStartsWith event_type ("payment.") then
    Parsed.account sdk_data
  else if pyStartsWith event_type ("customer.") || pyStartsWith event_type ("application.") then
    Parsed.customer event_type (dictGet sdk_data ("conv") (PyVal.str ""))
      (dictGet sdk_data ("seq") (PyVal.str "")) sdk_data
  else
    Parsed.raw sanitized

/-! ### Dictionary lemmas -/

theorem strEqB_eq {a b : String} : strEqB a b = true ↔ a = b := by
  cases a with
  | mk da =>
    cases b with
    | mk db =>
      simp only [strEqB, beq_iff_eq]
      constructor
      · intro h
        rw [h]
      · intro h
        cases h
        rfl

theorem strEqB_refl (a : String) : strEqB a a = true := strEqB_eq.mpr rfl

theorem strNe_of_strEqB_false {a b : String} (h : strEqB a b = false) : a ≠ b := by
  intro hab
  rw [hab, strEqB_refl] at h
  exact Bool.noConfusion h

theorem strEqB_false_of_ne {a b : String} (h : a ≠ b) : strEqB a b = false := by
  cases hb : strEqB a b with
  | false => rfl
  | true => exact absurd (strEqB_eq.mp hb) h

theorem dictFind_append (d1 d2 : PyDict) (k : String) :
    dictFind (d1 ++ d2) k =
      match dictFind d1 k with
      | Option.some v => Option.some v
      | Option.none => dictFind d2 k := by
  induction d1 with
  | nil => simp [dictFind]
  | cons p rest ih =>
    cases p with
    | mk k1 v1 =>
      cases h : strEqB k1 k with
      | true => simp [dictFind, h]
      | false => simp [dictFind, h, ih]

theorem dictFind_mapReplace_self (d : PyDict) (k : String) (v : PyVal)
    (hc : (dictFind d k).isSome = true) :
    dictFind (d.map (fun p => cond (strEqB p.1 k) (p.1, v) p)) k = Option.some v := by
  induction d with
  | nil => simp [dictFind] at hc
  | cons p rest ih =>
    cases p with
    | mk k1 v1 =>
      cases hb : strEqB k1 k with
      | true => simp [dictFind, hb]
      | false =>
        simp only [dictFind, hb, Bool.false_eq_true, if_false] at hc
        simp [dictFind, hb, ih hc]

theorem dictFind_mapReplace_ne (d : PyDict) (k : String) (v : PyVal) (k' : String)
    (hne : k ≠ k') :
    dictFind (d.map (fun p => cond (strEqB p.1 k) (p.1, v) p)) k' = dictFind d k' := by
  induction d with
  | nil => simp [dictFind]
  | cons p rest ih =>
    cases p with
    | mk k1 v1 =>
      cases hb : strEqB k1 k with
      | true =>
        have hk1 : k1 = k := strEqB_eq.mp hb
        have hb2 : strEqB k1 k' = false := by
          rw [hk1]
          exact strEqB_false_of_ne hne
        simp [dictFind, hb, hb2, ih]
      | false =>
        cases hb2 : strEqB k1 k' with
        | true => simp [dictFind, hb, hb2]
        | false => simp [dictFind, hb, hb2, ih]

theorem dictFind_dictSet_self (d : PyDict) (k : String) (v : PyVal) :
    dictFind (dictSet d k v) k = Option.some v := by
  unfold dictSet
  cases hc : dictContains d k with
  | true =>
    simp only [hc, if_true]
    exact dictFind_mapReplace_self d k v hc
  | false =>
    simp only [hc, Bool.false_eq_true, if_false]
    rw [dictFind_append]
    unfold dictContains at hc
    cases hfind : dictFind d k with
    | some w => rw [hfind] at hc; simp at hc
    | none => simp [dictFind, strEqB_refl]

theorem dictFind_dictSet_ne (d : PyDict) (k : String) (v : PyVal) (k' : String)
    (hne : k ≠ k') : dictFind (dictSet d k v) k' = dictFind d k' := by
  unfold dictSet
  cases hc : dictContains d k with
  | true =>
    simp only [hc, if_true]
    exact dictFind_mapReplace_ne d k v k' hne
  | false =>
    simp only [hc, Bool.false_eq_true, if_false]
    rw [dictFind_append]
    cases hfind : dictFind d k' with
    | some w => simp
    | none => simp [dictFind, strEqB_false_of_ne hne]

theorem fixIntField_find_ne (key : String) (d : PyDict) (k' : String) (hne : key ≠ k') :
    dictFind (fixIntField key d) k' = dictFind d k' := by
  unfold fixIntField
  split
  · rfl
  · split
    · exact dictFind_dictSet_ne d key _ k' hne
    · split
      · exact dictFind_dictSet_ne d key _ k' hne
      · split
        · exact dictFind_dictSet_ne d key _ k' hne
        · exact dictFind_dictSet_ne d key _ k' hne
    · rfl

theorem fixRec_find_ne (j : String → Option PyVal) (d : PyDict) (k' : String)
    (hne : ("rec" : String) ≠ k') : dictFind (fixRec j d) k' = dictFind d k' := by
  unfold fixRec
  split
  · split
    · exact dictFind_dictSet_ne d _ _ k' hne
    · split
      · exact dictFind_dictSet_ne d _ _ k' hne
      · exact dictFind_dictSet_ne d _ _ k' hne
  · exact dictFind_dictSet_ne d _ _ k' hne
  · rfl

theorem fixDat_find_ne (j : String → Option PyVal) (d : PyDict) (k' : String)
    (hne : ("dat" : String) ≠ k') : dictFind (fixDat j d) k' = dictFind d k' := by
  unfold fixDat
  split
  · split
    · exact dictFind_dictSet_ne d _ _ k' hne
    · rfl
  · rfl

/-! ### Block-wise agreement of the exception-explicit sanitizer -/

theorem fixIntFieldE_ok (key : String) (d : PyDict) :
    fixIntFieldE key d = Except.ok (fixIntField key d) := by
  cases h1 : dictFind d key with
  | none => simp [fixIntFieldE, fixIntField, h1]
  | some v =>
    cases v with
    | noneV => simp [fixIntFieldE, fixIntField, h1]
    | str s =>
      cases h2 : strIsEmptyB s with
      | true => simp [fixIntFieldE, fixIntField, h1, h2]
      | false =>
        cases h3 : pyInt s with
        | some n => simp [fixIntFieldE, fixIntField, pyIntE, h1, h2, h3]
        | none => simp [fixIntFieldE, fixIntField, pyIntE, h1, h2, h3]
    | bool b => simp [fixIntFieldE, fixIntField, h1]
    | int n => simp [fixIntFieldE, fixIntField, h1]
    | list xs => simp [fixIntFieldE, fixIntField, h1]

theorem fixRecE_ok (j : String → Option PyVal) (d : PyDict) :
    fixRecE j d = Except.ok (fixRec j d) := by
  cases h1 : dictFind d ("rec") with
  | none => simp [fixRecE, fixRec, h1]
  | some v =>
    cases v with
    | noneV => simp [fixRecE, fixRec, h1]
    | str s =>
      cases h2 : j s with
      | some parsed => simp [fixRecE, fixRec, jsonLoadsE, h1, h2]
      | none =>
        cases h3 : strIsEmptyB s with
        | true => simp [fixRecE, fixRec, jsonLoadsE, h1, h2, h3]
        | false => simp [fixRecE, fixRec, jsonLoadsE, h1, h2, h3]
    | bool b => simp [fixRecE, fixRec, h1]
    | int n => simp [fixRecE, fixRec, h1]
    | list xs => simp [fixRecE, fixRec, h1]

theorem fixDatE_ok (j : String → Option PyVal) (d : PyDict) :
    fixDatE j d = Except.ok (fixDat j d) := by
  cases h1 : dictFind d ("dat") with
  | none => simp [fixDatE, fixDat, h1]
  | some v =>
    cases v with
    | noneV => simp [fixDatE, fixDat, h1]
    | str s =>
      cases h2 : j s with
      | some parsed => simp [fixDatE, fixDat, jsonLoadsE, h1, h2]
      | none => simp [fixDatE, fixDat, jsonLoadsE, h1, h2]
    | bool b => simp [fixDatE, fixDat, h1]
    | int n => simp [fixDatE, fixDat, h1]
    | list xs => simp [fixDatE, fixDat, h1]

/-- C4 (Sanitizer totality): with every potentially-raising statement of
`sanitize_envelope` made explicit in the `Except` monad, every input
dict yields `Except.ok` of the pure result — the `try` blocks catch
exactly the exceptions (`ValueError`, `JSONDecodeError`) the fallible
primitives can raise, so no branch lets an exception escape. -/
theorem sanitize_envelope_total (jsonLoads : String → Option PyVal) (data : PyDict) :
    sanitize_envelopeE jsonLoads data = Except.ok (sanitize_envelope jsonLoads data) := by
  unfold sanitize_envelopeE sanitize_envelope
  rw [fixIntFieldE_ok]
  simp only []
  rw [fixIntFieldE_ok]
  simp only []
  rw [fixRecE_ok]
  simp only []
  rw [fixDatE_ok]

/-! ### Behaviour of the coercion block at its own key -/

theorem pyInt_of_empty {s : String} (h : strIsEmptyB s = true) : pyInt s = Option.none := by
  unfold strIsEmptyB at h
  have hdata : s.data = [] := by
    cases hd : s.data with
    | nil => rfl
    | cons c cs => rw [hd] at h; simp [List.isEmpty] at h
  unfold pyInt
  rw [hdata]
  rfl

theorem fixIntField_find_missing (key : String) (d : PyDict)
    (h : dictFind d key = Option.none) :
    dictFind (fixIntField key d) key = Option.none := by
  simp [fixIntField, h]

theorem fixIntField_find_noneV (key : String) (d : PyDict)
    (h : dictFind d key = Option.some PyVal.noneV) :
    dictFind (fixIntField key d) key = Option.some (PyVal.int 0) := by
  simp [fixIntField, h, dictFind_dictSet_self]

theorem fixIntField_find_str_bad (key : String) (d : PyDict) (s : String)
    (h : dictFind d key = Option.some (PyVal.str s)) (h2 : pyInt s = Option.none) :
    dictFind (fixIntField key d) key = Option.some (PyVal.int 0) := by
  cases h3 : strIsEmptyB s with
  | true => simp [fixIntField, h, h2, h3, dictFind_dictSet_self]
  | false => simp [fixIntField, h, h2, h3, dictFind_dictSet_self]

theorem fixIntField_find_str_num (key : String) (d : PyDict) (s : String) (n : Int)
    (h : dictFind d key = Option.some (PyVal.str s)) (h2 : pyInt s = Option.some n) :
    dictFind (fixIntField key d) key = Option.some (PyVal.int n) := by
  cases h3 : strIsEmptyB s with
  | true => rw [pyInt_of_empty h3] at h2; exact Option.noConfusion h2
  | false => simp [fixIntField, h, h2, h3, dictFind_dictSet_self]

theorem sanitize_find_cseq (j : String → Option PyVal) (d : PyDict) :
    dictFind (sanitize_envelope j d) ("c_seq") =
      dictFind (fixIntField ("c_seq") d) ("c_seq") := by
  unfold sanitize_envelope
  rw [fixDat_find_ne _ _ ("c_seq") (strNe_of_strEqB_false rfl),
      fixRec_find_ne _ _ ("c_seq") (strNe_of_strEqB_false rfl),
      fixIntField_find_ne ("seq") _ ("c_seq") (strNe_of_strEqB_false rfl)]

theorem sanitize_find_seq (j : String → Option PyVal) (d : PyDict) :
    dictFind (sanitize_envelope j d) ("seq") =
      dictFind (fixIntField ("seq") (fixIntField ("c_seq") d)) ("seq") := by
  unfold sanitize_envelope
  rw [fixDat_find_ne _ _ ("seq") (strNe_of_strEqB_false rfl),
      fixRec_find_ne _ _ ("seq") (strNe_of_strEqB_false rfl)]

theorem cseq_find_through_first (d : PyDict) :
    dictFind (fixIntField ("c_seq") d) ("seq") = dictFind d ("seq") :=
  fixIntField_find_ne ("c_seq") _ ("seq") (strNe_of_strEqB_false rfl)

/-- C7: after `sanitize_envelope`, the `c_seq` and `seq` fields obey the
boundary rules: an absent (`None`) value or non-numeric text (including
the empty string, since `pyInt` fails on it) yields integer `0`; numeric
text parses to that integer; a missing key stays missing. -/
theorem seq_fields_coercion (j : String → Option PyVal) (d : PyDict) :
    (dictFind d ("c_seq") = Option.none →
        dictFind (sanitize_envelope j d) ("c_seq") = Option.none)
  ∧ (dictFind d ("c_seq") = Option.some PyVal.noneV →
        dictFind (sanitize_envelope j d) ("c_seq") = Option.some (PyVal.int 0))
  ∧ (∀ s, dictFind d ("c_seq") = Option.some (PyVal.str s) → pyInt s = Option.none →
        dictFind (sanitize_envelope j d) ("c_seq") = Option.some (PyVal.int 0))
  ∧ (∀ s n, dictFind d ("c_seq") = Option.some (PyVal.str s) → pyInt s = Option.some n →
        dictFind (sanitize_envelope j d) ("c_seq") = Option.some (PyVal.int n))
  ∧ (dictFind d ("seq") = Option.none →
        dictFind (sanitize_envelope j d) ("seq") = Option.none)
  ∧ (dictFind d ("seq") = Option.some PyVal.noneV →
        dictFind (sanitize_envelope j d) ("seq") = Option.some (PyVal.int 0))
  ∧ (∀ s, dictFind d ("seq") = Option.some (PyVal.str s) → pyInt s = Option.none →
        dictFind (sanitize_envelope j d) ("seq") = Option.some (PyVal.int 0))
  ∧ (∀ s n, dictFind d ("seq") = Option.some (PyVal.str s) → pyInt s = Option.some n →
        dictFind (sanitize_envelope j d) ("seq") = Option.some (PyVal.int n)) := by
  refine ⟨?_, ?_, ?_, ?_, ?_, ?_, ?_, ?_⟩
  · intro h
    rw [sanitize_find_cseq]
    exact fixIntField_find_missing _ _ h
  · intro h
    rw [sanitize_find_cseq]
    exact fixIntField_find_noneV _ _ h
  · intro s h h2
    rw [sanitize_find_cseq]
    exact fixIntField_find_str_bad _ _ _ h h2
  · intro s n h h2
    rw [sanitize_find_cseq]
    exact fixIntField_find_str_num _ _ _ _ h h2
  · intro h
    rw [sanitize_find_seq]
    exact fixIntField_find_missing _ _ (by rw [cseq_find_through_first, h])
  · intro h
    rw [sanitize_find_seq]
    exact fixIntField_find_noneV _ _ (by rw [cseq_find_through_first, h])
  · intro s h h2
    rw [sanitize_find_seq]
    exact fixIntField_find_str_bad _ _ _ (by rw [cseq_find_through_first, h]) h2
  · intro s n h h2
    rw [sanitize_find_seq]
    exact fixIntField_find_str_num _ _ _ _ (by rw [cseq_find_through_first, h]) h2

/-- A `json.loads` model that always fails, for concrete instances where
the decoded strings are not valid JSON. -/
def jNone : String → Option PyVal := fun _ => Option.none

/-- A `json.loads` model mapping every input to the JSON scalar `5`,
matching CPython on the input text `"5"`. -/
def jFive : String → Option PyVal := fun _ => Option.some (PyVal.int 5)

/-- C7 witness: on `{c_seq: "12", seq: "zz"}` the sanitizer yields
integer `12` for `c_seq` and integer `0` for `seq`. -/
theorem seq_fields_coercion_witness :
    dictFind (sanitize_envelope jNone [(("c_seq"), PyVal.str "12"), (("seq"), PyVal.str "zz")])
        ("c_seq") = Option.some (PyVal.int 12)
  ∧ dictFind (sanitize_envelope jNone [(("c_seq"), PyVal.str "12"), (("seq"), PyVal.str "zz")])
        ("seq") = Option.some (PyVal.int 0) :=
  ⟨(seq_fields_coercion jNone _).2.2.2.1 "12" 12 rfl rfl,
   (seq_fields_coercion jNone _).2.2.2.2.2.2.1 "zz" rfl rfl⟩

/-- C9: when the `rec` field holds text that JSON-decodes to some value,
the sanitizer stores that decoded value as-is — there is no check that
it is a list. -/
theorem rec_json_nonlist (j : String → Option PyVal) (d : PyDict) (s : String) (v : PyVal)
    (h1 : dictFind d ("rec") = Option.some (PyVal.str s)) (h2 : j s = Option.some v) :
    dictFind (sanitize_envelope j d) ("rec") = Option.some v := by
  unfold sanitize_envelope
  rw [fixDat_find_ne _ _ ("rec") (strNe_of_strEqB_false rfl)]
  have htrans : dictFind (fixIntField ("seq") (fixIntField ("c_seq") d)) ("rec") =
      Option.some (PyVal.str s) := by
    rw [fixIntField_find_ne ("seq") _ ("rec") (strNe_of_strEqB_false rfl),
        fixIntField_find_ne ("c_seq") _ ("rec") (strNe_of_strEqB_false rfl), h1]
  simp [fixRec, htrans, h2, dictFind_dictSet_self]

/-- C9 witness: `rec` holding the text `"5"` (valid JSON, not an array)
sanitizes to the integer `5`, a non-list value. -/
theorem rec_json_nonlist_witness :
    dictFind (sanitize_envelope jFive [(("rec"), PyVal.str "5")]) ("rec") =
      Option.some (PyVal.int 5) :=
  rec_json_nonlist jFive _ "5" (PyVal.int 5) rfl rfl

/-- C3 (amended): for an event type matching none of the four SDK
prefixes, `_parse_event` returns its *input* dict unchanged — the
`sanitize_envelope` coercions are computed into `sdk_data` but the
fallback branch returns the argument `sanitized`, not `sdk_data`. -/
theorem parse_event_fallback_raw (j : String → Option PyVal) (event_type : String) (d : PyDict)
    (h1 : pyStartsWith event_type ("account.") = false)
    (h2 : pyStartsWith event_type ("payment.") = false)
    (h3 : pyStartsWith event_type ("customer.") = false)
    (h4 : pyStartsWith event_type ("application.") = false) :
    _parse_event j event_type d = Parsed.raw d := by
  simp [_parse_event, h1, h2, h3, h4]

/-- C3 witness: a chat-family event type takes the fallback branch and the
raw input dict is returned. -/
theorem parse_event_fallback_raw_witness :
    _parse_event jNone ("chat.message") [(("c_seq"), PyVal.str "")] =
      Parsed.raw [(("c_seq"), PyVal.str "")] :=
  parse_event_fallback_raw jNone ("chat.message") _ rfl rfl rfl rfl

/-- C3 counterexample: the claim as stated — that the fallback branch
returns the map with the sanitizer's coercions applied — is false: on
`{c_seq: ""}` the returned dict still holds the empty string while the
sanitized dict holds integer `0`. -/
theorem parse_event_fallback_cex :
    _parse_event jNone ("chat.message") [(("c_seq"), PyVal.str "")] ≠
      Parsed.raw (sanitize_envelope jNone [(("c_seq"), PyVal.str "")]) := by
  have h1 : _parse_event jNone ("chat.message") [(("c_seq"), PyVal.str "")] =
      Parsed.raw [(("c_seq"), PyVal.str "")] := rfl
  have h2 : sanitize_envelope jNone [(("c_seq"), PyVal.str "")] =
      [(("c_seq"), PyVal.int 0)] := rfl
  rw [h1, h2]
  intro h
  injection h with hlist
  injection hlist with hpair hrest
  injection hpair with hk hv
  exact PyVal.noConfusion hv

/-! ### Effect-trace model of `_process_message`

`_process_message` (processor.py lines 436-540) interleaves awaited calls
on external clients.  Each call site's outcome is drawn from an
environment: `Res.ok` for normal return, `Res.err Exc.conn` for the
connection-class exceptions (`RedisConnectionError`, `RedisTimeoutError`,
`OSError`) and `Res.err Exc.other` for every other exception.  The
function is modelled as the list of externally observable calls it makes
(with each call's outcome) together with the exception it re-raises, if
any.  Pure steps (byte decode, event-type derivation, handler lookup,
logging) make no external call and are folded into the control flow. -/

/-- Exception classes distinguished by the handlers in `_process_message`. -/
inductive Exc where
  | conn : Exc
  | other : Exc
deriving DecidableEq

/-- Outcome of one awaited call: normal return or a raised exception. -/
inductive Res where
  | ok : Res
  | err (e : Exc) : Res
deriving DecidableEq

/-- Outcome of the dedup `exists` call: a boolean answer or a raise. -/
inductive ResB where
  | ok (b : Bool) : ResB
  | err (e : Exc) : ResB
deriving DecidableEq

/-- One observable side effect of a `_process_message` run. -/
inductive Ev where
  | existsCheck (r : ResB) : Ev
  | parseCall (r : Res) : Ev
  | handlerRun (r : Res) : Ev
  | setexMark (r : Res) : Ev
  | dlqAdd (r : Res) : Ev
  | ackCall (r : Res) : Ev
deriving DecidableEq

/-- Environment fixing the outcome of each call site of one dispatch:
the dedup `exists`, the SDK parse, whether a handler is registered, the
handler body, the dedup `setex`, the DLQ `xadd`, and the four `xack`
sites (dedup-skip, no-handler, success path, DLQ path). -/
structure Env where
  existsR : ResB
  parseR : Res
  hasHandler : Bool
  handlerR : Res
  setexR : Res
  dlqR : Res
  ack1R : Res
  ack2R : Res
  ack3R : Res
  ack4R : Res
deriving DecidableEq

/-- The `try` body of `_process_message` (lines 447-510): dedup check,
dedup-skip ack, parse, handler lookup, handler call, `setex`, final
ack — stopping at the first raised exception, which is returned. -/
def mainBody (env : Env) : List Ev × Option Exc :=
  match env.existsR with
  | ResB.err e => ([Ev.existsCheck (ResB.err e)], Option.some e)
  | ResB.ok true =>
    match env.ack1R with
    | Res.ok => ([Ev.existsCheck (ResB.ok true), Ev.ackCall Res.ok], Option.none)
    | Res.err e => ([Ev.existsCheck (ResB.ok true), Ev.ackCall (Res.err e)], Option.some e)
  | ResB.ok false =>
    match env.parseR with
    | Res.err e => ([Ev.existsCheck (ResB.ok false), Ev.parseCall (Res.err e)], Option.some e)
    | Res.ok =>
      if env.hasHandler then
        match env.handlerR with
        | Res.err e =>
          ([Ev.existsCheck (ResB.ok false), Ev.parseCall Res.ok, Ev.handlerRun (Res.err e)],
            Option.some e)
        | Res.ok =>
          match env.setexR with
          | Res.err e =>
            ([Ev.existsCheck (ResB.ok false), Ev.parseCall Res.ok, Ev.handlerRun Res.ok,
              Ev.setexMark (Res.err e)], Option.some e)
          | Res.ok =>
            match env.ack3R with
            | Res.err e =>
              ([Ev.existsCheck (ResB.ok false), Ev.parseCall Res.ok, Ev.handlerRun Res.ok,
                Ev.setexMark Res.ok, Ev.ackCall (Res.err e)], Option.some e)
            | Res.ok =>
              ([Ev.existsCheck (ResB.ok false), Ev.parseCall Res.ok, Ev.handlerRun Res.ok,
                Ev.setexMark Res.ok, Ev.ackCall Res.ok], Option.none)
      else
        match env.ack2R with
        | Res.ok =>
          ([Ev.existsCheck (ResB.ok false), Ev.parseCall Res.ok, Ev.ackCall Res.ok],
            Option.none)
        | Res.err e =>
          ([Ev.existsCheck (ResB.ok false), Ev.parseCall Res.ok, Ev.ackCall (Res.err e)],
            Option.some e)

/-- The DLQ transfer of the generic `except` clause (lines 528-540): the
nested `try` appends to the DLQ then acks, catching only the
connection-class errors (which are logged and swallowed); any other
exception from the append or the ack propagates. -/
def dlqBody (env : Env) : List Ev × Option Exc :=
  match env.dlqR with
  | Res.err Exc.conn => ([Ev.dlqAdd (Res.err Exc.conn)], Option.none)
  | Res.err Exc.other => ([Ev.dlqAdd (Res.err Exc.other)], Option.some Exc.other)
  | Res.ok =>
    match env.ack4R with
    | Res.ok => ([Ev.dlqAdd Res.ok, Ev.ackCall Res.ok], Option.none)
    | Res.err Exc.conn => ([Ev.dlqAdd Res.ok, Ev.ackCall (Res.err Exc.conn)], Option.none)
    | Res.err Exc.other => ([Ev.dlqAdd Res.ok, Ev.ackCall (Res.err Exc.other)], Option.some Exc.other)

/-- `_process_message`: run the body; re-raise connection-class errors
unchanged (lines 512-515); on any other exception run the DLQ transfer
when `delivery_count >= settings.max_retries` and otherwise swallow,
leaving the message un-acked (lines 517-540). -/
def _process_message (env : Env) (delivery_count max_retries : Nat) : List Ev × Option Exc :=
  match mainBody env with
  | (t, Option.none) => (t, Option.none)
  | (t, Option.some Exc.conn) => (t, Option.some Exc.conn)
  | (t, Option.some Exc.other) =>
    if delivery_count ≥ max_retries then
      match dlqBody env with
      | (t2, r2) => (t ++ t2, r2)
    else (t, Option.none)

/-- Event classifiers used by the ordering invariant. -/
def isSetexEv : Ev → Bool
  | Ev.setexMark _ => true
  | _ => false

def isSetexOkEv : Ev → Bool
  | Ev.setexMark Res.ok => true
  | _ => false

def isAckEv : Ev → Bool
  | Ev.ackCall _ => true
  | _ => false

def isHandlerOkEv : Ev → Bool
  | Ev.handlerRun Res.ok => true
  | _ => false

/-- Scan for the ordering discipline: carrying "a successful handler call
has been seen" and "an ack has been seen", demand that every `setex`
attempt come after a successful handler call and that every *successful*
`setex` come before every ack. -/
def ordScan : Bool → Bool → List Ev → Bool
  | _, _, [] => true
  | hOk, aSeen, ev :: rest =>
    (!(isSetexEv ev) || hOk) && (!(isSetexOkEv ev) || !aSeen) &&
      ordScan (hOk || isHandlerOkEv ev) (aSeen || isAckEv ev) rest

/-- Ordering discipline over a full trace. -/
def ordOK (t : List Ev) : Bool := ordScan false false t

/-! ### Trace lemmas for `_process_message` -/

theorem isSetexEv_of_ok {ev : Ev} (h : isSetexOkEv ev = true) : isSetexEv ev = true := by
  cases ev <;> simp_all [isSetexOkEv, isSetexEv]

theorem ordScan_of_no_setex : ∀ (t : List Ev) (h a : Bool),
    (∀ ev ∈ t, isSetexEv ev = false) → ordScan h a t = true := by
  intro t
  induction t with
  | nil => intro h a _; rfl
  | cons ev rest ih =>
    intro h a hns
    have h1 : isSetexEv ev = false := hns ev (List.mem_cons_self ev rest)
    have h2 : isSetexOkEv ev = false := by
      cases hs : isSetexOkEv ev with
      | false => rfl
      | true => rw [isSetexEv_of_ok hs] at h1; exact Bool.noConfusion h1
    simp only [ordScan, h1, h2, Bool.not_false, Bool.true_or, Bool.true_and]
    exact ih _ _ (fun ev2 hev2 => hns ev2 (List.mem_cons_of_mem ev hev2))

theorem ordScan_append_no_setex : ∀ (t1 : List Ev) (h a : Bool) (t2 : List Ev),
    ordScan h a t1 = true → (∀ ev ∈ t2, isSetexEv ev = false) →
    ordScan h a (t1 ++ t2) = true := by
  intro t1
  induction t1 with
  | nil => intro h a t2 _ hns; exact ordScan_of_no_setex t2 h a hns
  | cons ev rest ih =>
    intro h a t2 hscan hns
    unfold ordScan at hscan
    rw [Bool.and_eq_true, Bool.and_eq_true] at hscan
    obtain ⟨⟨c1, c2⟩, c3⟩ := hscan
    rw [List.cons_append]
    unfold ordScan
    rw [c1, Bool.true_and, c2, Bool.true_and]
    exact ih _ _ t2 c3 hns

theorem mainBody_ord (env : Env) : ordScan false false (mainBody env).1 = true := by
  rcases env with ⟨er, pr, hh, hr, sr, dr, a1, a2, a3, a4⟩
  cases er with
  | err e => rfl
  | ok b =>
    cases b with
    | true =>
      cases a1 with
      | ok => rfl
      | err e => rfl
    | false =>
      cases pr with
      | err e => rfl
      | ok =>
        cases hh with
        | false =>
          cases a2 with
          | ok => rfl
          | err e => rfl
        | true =>
          cases hr with
          | err e => rfl
          | ok =>
            cases sr with
            | err e => rfl
            | ok =>
              cases a3 with
              | ok => rfl
              | err e => rfl

theorem mainBody_handler_err (env : Env) (e : Exc)
    (h : Ev.handlerRun (Res.err e) ∈ (mainBody env).1) :
    mainBody env = ([Ev.existsCheck (ResB.ok false), Ev.parseCall Res.ok,
      Ev.handlerRun (Res.err e)], Option.some e) := by
  rcases env with ⟨er, pr, hh, hr, sr, dr, a1, a2, a3, a4⟩
  cases er with
  | err e2 => simp [mainBody] at h
  | ok b =>
    cases b with
    | true =>
      cases a1 with
      | ok => simp [mainBody] at h
      | err e2 => simp [mainBody] at h
    | false =>
      cases pr with
      | err e2 => simp [mainBody] at h
      | ok =>
        cases hh with
        | false =>
          cases a2 with
          | ok => simp [mainBody] at h
          | err e2 => simp [mainBody] at h
        | true =>
          cases hr with
          | err e2 =>
            simp [mainBody] at h
            subst h
            simp [mainBody]
          | ok =>
            cases sr with
            | err e2 => simp [mainBody] at h
            | ok =>
              cases a3 with
              | ok => simp [mainBody] at h
              | err e2 => simp [mainBody] at h

theorem mainBody_parse_err (env : Env) (e : Exc)
    (h : Ev.parseCall (Res.err e) ∈ (mainBody env).1) :
    mainBody env = ([Ev.existsCheck (ResB.ok false), Ev.parseCall (Res.err e)],
      Option.some e) := by
  rcases env with ⟨er, pr, hh, hr, sr, dr, a1, a2, a3, a4⟩
  cases er with
  | err e2 => simp [mainBody] at h
  | ok b =>
    cases b with
    | true =>
      cases a1 with
      | ok => simp [mainBody] at h
      | err e2 => simp [mainBody] at h
    | false =>
      cases pr with
      | err e2 =>
        simp [mainBody] at h
        subst h
        simp [mainBody]
      | ok =>
        cases hh with
        | false =>
          cases a2 with
          | ok => simp [mainBody] at h
          | err e2 => simp [mainBody] at h
        | true =>
          cases hr with
          | err e2 => simp [mainBody] at h
          | ok =>
            cases sr with
            | err e2 => simp [mainBody] at h
            | ok =>
              cases a3 with
              | ok => simp [mainBody] at h
              | err e2 => simp [mainBody] at h

theorem dlqBody_no_setex (env : Env) :
    ∀ ev ∈ (dlqBody env).1, isSetexEv ev = false := by
  rcases env with ⟨er, pr, hh, hr, sr, dr, a1, a2, a3, a4⟩
  cases dr with
  | ok =>
    cases a4 with
    | ok =>
      intro ev h
      simp [dlqBody] at h
      rcases h with rfl | rfl <;> rfl
    | err e =>
      cases e with
      | conn =>
        intro ev h
        simp [dlqBody] at h
        rcases h with rfl | rfl <;> rfl
      | other =>
        intro ev h
        simp [dlqBody] at h
        rcases h with rfl | rfl <;> rfl
  | err e =>
    cases e with
    | conn =>
      intro ev h
      simp [dlqBody] at h
      rw [h]
      rfl
    | other =>
      intro ev h
      simp [dlqBody] at h
      rw [h]
      rfl

theorem dlqBody_no_handlerRun (env : Env) (r : Res) :
    Ev.handlerRun r ∉ (dlqBody env).1 := by
  rcases env with ⟨er, pr, hh, hr, sr, dr, a1, a2, a3, a4⟩
  cases dr with
  | ok =>
    cases a4 with
    | ok => simp [dlqBody]
    | err e => cases e <;> simp [dlqBody]
  | err e => cases e <;> simp [dlqBody]

theorem dlqBody_ack_impl_dlqOk (env : Env) (r : Res)
    (h : Ev.ackCall r ∈ (dlqBody env).1) : Ev.dlqAdd Res.ok ∈ (dlqBody env).1 := by
  rcases env with ⟨er, pr, hh, hr, sr, dr, a1, a2, a3, a4⟩
  cases dr with
  | ok =>
    cases a4 with
    | ok => simp [dlqBody]
    | err e => cases e <;> simp [dlqBody]
  | err e => cases e <;> simp [dlqBody] at h

/-- C1 (amended): in every dispatch, a `setex` attempt is only made after
the handler completed successfully, and a successful `setex` precedes
every ack; when the handler raises, no dedup marker is ever written and
an ack can be observed only on the DLQ path (retry ceiling reached and
the DLQ append succeeded, the ack following it). -/
theorem process_message_effect_order (env : Env) (delivery_count max_retries : Nat) :
    ordOK (_process_message env delivery_count max_retries).1 = true
  ∧ ∀ e, Ev.handlerRun (Res.err e) ∈ (_process_message env delivery_count max_retries).1 →
      (∀ r, Ev.setexMark r ∉ (_process_message env delivery_count max_retries).1)
    ∧ ∀ r, Ev.ackCall r ∈ (_process_message env delivery_count max_retries).1 →
        delivery_count ≥ max_retries ∧
          Ev.dlqAdd Res.ok ∈ (_process_message env delivery_count max_retries).1 := by
  constructor
  · unfold ordOK
    cases hm : mainBody env with
    | mk t r =>
      have hord : ordScan false false t = true := by
        have := mainBody_ord env
        rw [hm] at this
        exact this
      cases r with
      | none => simp [_process_message, hm, hord]
      | some exc =>
        cases exc with
        | conn => simp [_process_message, hm, hord]
        | other =>
          by_cases hd : delivery_count ≥ max_retries
          · cases hq : dlqBody env with
            | mk t2 r2 =>
              have htrace : (_process_message env delivery_count max_retries).1 = t ++ t2 := by
                simp [_process_message, hm, hd, hq]
              rw [htrace]
              refine ordScan_append_no_setex t false false t2 hord ?_
              intro ev hev
              exact dlqBody_no_setex env ev (by rw [hq]; exact hev)
          · simp [_process_message, hm, hd, hord]
  · intro e hmem
    cases hm : mainBody env with
    | mk t r =>
      cases r with
      | none =>
        have htrace : (_process_message env delivery_count max_retries).1 = t := by
          simp [_process_message, hm]
        rw [htrace] at hmem
        have h2 := mainBody_handler_err env e (by rw [hm]; exact hmem)
        rw [hm] at h2
        have := congrArg Prod.snd h2
        simp at this
      | some exc =>
        cases exc with
        | conn =>
          have htrace : (_process_message env delivery_count max_retries).1 = t := by
            simp [_process_message, hm]
          rw [htrace] at hmem
          have h2 := mainBody_handler_err env e (by rw [hm]; exact hmem)
          rw [hm] at h2
          have ht : t = [Ev.existsCheck (ResB.ok false), Ev.parseCall Res.ok,
              Ev.handlerRun (Res.err e)] := congrArg Prod.fst h2
          constructor
          · intro r0 hr0
            rw [htrace, ht] at hr0
            simp at hr0
          · intro r0 hr0
            rw [htrace, ht] at hr0
            simp at hr0
        | other =>
          by_cases hd : delivery_count ≥ max_retries
          · cases hq : dlqBody env with
            | mk t2 r2 =>
              have htrace : (_process_message env delivery_count max_retries).1 = t ++ t2 := by
                simp [_process_message, hm, hd, hq]
              rw [htrace] at hmem
              have hmem1 : Ev.handlerRun (Res.err e) ∈ t := by
                rcases List.mem_append.mp hmem with h3 | h3
                · exact h3
                · exact absurd h3 (by
                    have := dlqBody_no_handlerRun env (Res.err e)
                    rw [hq] at this
                    exact this)
              have h2 := mainBody_handler_err env e (by rw [hm]; exact hmem1)
              rw [hm] at h2
              have ht : t = [Ev.existsCheck (ResB.ok false), Ev.parseCall Res.ok,
                  Ev.handlerRun (Res.err e)] := congrArg Prod.fst h2
              constructor
              · intro r0 hr0
                rw [htrace] at hr0
                rcases List.mem_append.mp hr0 with h3 | h3
                · rw [ht] at h3
                  simp at h3
                · have h4 := dlqBody_no_setex env (Ev.setexMark r0) (by rw [hq]; exact h3)
                  simp [isSetexEv] at h4
              · intro r0 hr0
                rw [htrace] at hr0 ⊢
                refine ⟨hd, ?_⟩
                rcases List.mem_append.mp hr0 with h3 | h3
                · rw [ht] at h3
                  simp at h3
                · have h4 := dlqBody_ack_impl_dlqOk env r0 (by rw [hq]; exact h3)
                  rw [hq] at h4
                  exact List.mem_append.mpr (Or.inr h4)
          · have htrace : (_process_message env delivery_count max_retries).1 = t := by
              simp [_process_message, hm, hd]
            rw [htrace] at hmem
            have h2 := mainBody_handler_err env e (by rw [hm]; exact hmem)
            rw [hm] at h2
            have ht : t = [Ev.existsCheck (ResB.ok false), Ev.parseCall Res.ok,
                Ev.handlerRun (Res.err e)] := congrArg Prod.fst h2
            constructor
            · intro r0 hr0
              rw [htrace, ht] at hr0
              simp at hr0
            · intro r0 hr0
              rw [htrace, ht] at hr0
              simp at hr0

/-- Environment of the C1 counterexample: dedup miss, parse ok, handler
raises a non-connection error, DLQ append and all acks succeed. -/
def envPoisonOk : Env :=
  ⟨ResB.ok false, Res.ok, true, Res.err Exc.other, Res.ok, Res.ok,
    Res.ok, Res.ok, Res.ok, Res.ok⟩

/-- C1 counterexample: with `delivery_count = max_retries = 3` the handler
raises, yet an ack *is* observed for that delivery (after the DLQ
append) — refuting the claim's "if the handler raises, no ack is
observable". -/
theorem process_message_handler_raise_ack_cex :
    Ev.handlerRun (Res.err Exc.other) ∈ (_process_message envPoisonOk 3 3).1
  ∧ Ev.ackCall Res.ok ∈ (_process_message envPoisonOk 3 3).1 := by decide

/-- C1 witness: a fully successful dispatch satisfies the ordering
discipline and, vacuously, the handler-raise clause. -/
def envAllOk : Env :=
  ⟨ResB.ok false, Res.ok, true, Res.ok, Res.ok, Res.ok,
    Res.ok, Res.ok, Res.ok, Res.ok⟩

theorem process_message_effect_order_witness :
    ordOK (_process_message envAllOk 1 3).1 = true :=
  (process_message_effect_order envAllOk 1 3).1

theorem dlqBody_no_parseCall (env : Env) (r : Res) :
    Ev.parseCall r ∉ (dlqBody env).1 := by
  rcases env with ⟨er, pr, hh, hr, sr, dr, a1, a2, a3, a4⟩
  cases dr with
  | ok =>
    cases a4 with
    | ok => simp [dlqBody]
    | err e => cases e <;> simp [dlqBody]
  | err e => cases e <;> simp [dlqBody]

/-- C2 (amended): when the parser or handler raises a non-connection
error at the retry ceiling, the outcome is exactly one of: (a) DLQ entry
appended and the original acked; (b) the DLQ append fails — of any
class, the nested handler only swallows the connection class — and no
ack is attempted; (c) the DLQ append succeeds but the ack itself fails,
leaving the entry in the DLQ without an ack. -/
theorem dlq_finality_cases (env : Env) (delivery_count max_retries : Nat)
    (hmax : delivery_count ≥ max_retries)
    (hfail : Ev.parseCall (Res.err Exc.other) ∈
          (_process_message env delivery_count max_retries).1
      ∨ Ev.handlerRun (Res.err Exc.other) ∈
          (_process_message env delivery_count max_retries).1) :
    (env.dlqR = Res.ok → env.ack4R = Res.ok →
        Ev.dlqAdd Res.ok ∈ (_process_message env delivery_count max_retries).1
      ∧ Ev.ackCall Res.ok ∈ (_process_message env delivery_count max_retries).1)
  ∧ (∀ e, env.dlqR = Res.err e →
        Ev.dlqAdd (Res.err e) ∈ (_process_message env delivery_count max_retries).1
      ∧ ∀ r, Ev.ackCall r ∉ (_process_message env delivery_count max_retries).1)
  ∧ (∀ e, env.dlqR = Res.ok → env.ack4R = Res.err e →
        Ev.dlqAdd Res.ok ∈ (_process_message env delivery_count max_retries).1
      ∧ Ev.ackCall (Res.err e) ∈ (_process_message env delivery_count max_retries).1
      ∧ Ev.ackCall Res.ok ∉ (_process_message env delivery_count max_retries).1) := by
  have hmb : mainBody env = ([Ev.existsCheck (ResB.ok false), Ev.parseCall (Res.err Exc.other)],
        Option.some Exc.other)
      ∨ mainBody env = ([Ev.existsCheck (ResB.ok false), Ev.parseCall Res.ok,
        Ev.handlerRun (Res.err Exc.other)], Option.some Exc.other) := by
    cases hm : mainBody env with
    | mk t r =>
      rcases hfail with hf | hf
      · left
        rw [← hm]
        apply mainBody_parse_err
        rw [hm]
        cases r with
        | none =>
          have htrace : (_process_message env delivery_count max_retries).1 = t := by
            simp [_process_message, hm]
          rw [htrace] at hf
          exact hf
        | some exc =>
          cases exc with
          | conn =>
            have htrace : (_process_message env delivery_count max_retries).1 = t := by
              simp [_process_message, hm]
            rw [htrace] at hf
            exact hf
          | other =>
            cases hq : dlqBody env with
            | mk t2 r2 =>
              have htrace : (_process_message env delivery_count max_retries).1 = t ++ t2 := by
                simp [_process_message, hm, hmax, hq]
              rw [htrace] at hf
              rcases List.mem_append.mp hf with h3 | h3
              · exact h3
              · exact absurd h3 (by
                  have := dlqBody_no_parseCall env (Res.err Exc.other)
                  rw [hq] at this
                  exact this)
      · right
        rw [← hm]
        apply mainBody_handler_err
        rw [hm]
        cases r with
        | none =>
          have htrace : (_process_message env delivery_count max_retries).1 = t := by
            simp [_process_message, hm]
          rw [htrace] at hf
          exact hf
        | some exc =>
          cases exc with
          | conn =>
            have htrace : (_process_message env delivery_count max_retries).1 = t := by
              simp [_process_message, hm]
            rw [htrace] at hf
            exact hf
          | other =>
            cases hq : dlqBody env with
            | mk t2 r2 =>
              have htrace : (_process_message env delivery_count max_retries).1 = t ++ t2 := by
                simp [_process_message, hm, hmax, hq]
              rw [htrace] at hf
              rcases List.mem_append.mp hf with h3 | h3
              · exact h3
              · exact absurd h3 (by
                  have := dlqBody_no_handlerRun env (Res.err Exc.other)
                  rw [hq] at this
                  exact this)
  have hnoack : ∀ r0, Ev.ackCall r0 ∉ (mainBody env).1 := by
    intro r0 hr0
    rcases hmb with hmb | hmb <;> rw [hmb] at hr0 <;> simp at hr0
  have htrace : (_process_message env delivery_count max_retries).1 =
      (mainBody env).1 ++ (dlqBody env).1 := by
    cases hq : dlqBody env with
    | mk t2 r2 =>
      rcases hmb with hmb | hmb <;> simp [_process_message, hmb, hmax, hq]
  refine ⟨?_, ?_, ?_⟩
  · intro hdlq hack
    have hq1 : (dlqBody env).1 = [Ev.dlqAdd Res.ok, Ev.ackCall Res.ok] := by
      simp [dlqBody, hdlq, hack]
    rw [htrace, hq1]
    constructor
    · exact List.mem_append.mpr (Or.inr (by simp))
    · exact List.mem_append.mpr (Or.inr (by simp))
  · intro e hdlq
    have hq1 : (dlqBody env).1 = [Ev.dlqAdd (Res.err e)] := by
      cases e <;> simp [dlqBody, hdlq]
    rw [htrace, hq1]
    constructor
    · exact List.mem_append.mpr (Or.inr (by simp))
    · intro r0 hr0
      rcases List.mem_append.mp hr0 with h3 | h3
      · exact hnoack r0 h3
      · simp at h3
  · intro e hdlq hack
    have hq1 : (dlqBody env).1 = [Ev.dlqAdd Res.ok, Ev.ackCall (Res.err e)] := by
      cases e <;> simp [dlqBody, hdlq, hack]
    rw [htrace, hq1]
    refine ⟨List.mem_append.mpr (Or.inr (by simp)),
      List.mem_append.mpr (Or.inr (by simp)), ?_⟩
    intro hr0
    rcases List.mem_append.mp hr0 with h3 | h3
    · exact hnoack Res.ok h3
    · simp at h3

/-- Environment of the C2 counterexample: handler raises at the retry
ceiling, the DLQ append succeeds, and the subsequent ack fails with a
connection error that the nested handler swallows. -/
def envDlqAckConn : Env :=
  ⟨ResB.ok false, Res.ok, true, Res.err Exc.other, Res.ok, Res.ok,
    Res.ok, Res.ok, Res.ok, Res.err Exc.conn⟩

/-- C2 counterexample: the DLQ entry is appended but the message is never
acked — neither case (a) "appended and acked" nor case (b) "both
skipped" of the claim holds. -/
theorem dlq_finality_cex :
    Ev.dlqAdd Res.ok ∈ (_process_message envDlqAckConn 3 3).1
  ∧ Ev.ackCall Res.ok ∉ (_process_message envDlqAckConn 3 3).1 := by decide

/-- C2 witness: for the fully successful DLQ path, case (a) is realised. -/
theorem dlq_finality_cases_witness :
    Ev.dlqAdd Res.ok ∈ (_process_message envPoisonOk 3 3).1
  ∧ Ev.ackCall Res.ok ∈ (_process_message envPoisonOk 3 3).1 :=
  (dlq_finality_cases envPoisonOk 3 3 (by decide) (Or.inr (by decide))).1 rfl rfl

/-- C8: a redelivery that hits a live dedup key invokes no handler at all
and goes straight to the ack; when that ack succeeds the dispatch's
whole observable behaviour is the dedup check followed by the ack. -/
theorem dedup_skip_acks (env : Env) (delivery_count max_retries : Nat)
    (h : env.existsR = ResB.ok true) :
    (∀ r, Ev.handlerRun r ∉ (_process_message env delivery_count max_retries).1)
  ∧ Ev.ackCall env.ack1R ∈ (_process_message env delivery_count max_retries).1
  ∧ (env.ack1R = Res.ok →
      _process_message env delivery_count max_retries =
        ([Ev.existsCheck (ResB.ok true), Ev.ackCall Res.ok], Option.none)) := by
  cases ha : env.ack1R with
  | ok =>
    have hm : mainBody env = ([Ev.existsCheck (ResB.ok true), Ev.ackCall Res.ok],
        Option.none) := by
      simp [mainBody, h, ha]
    refine ⟨?_, ?_, ?_⟩
    · intro r0
      simp [_process_message, hm]
    · simp [_process_message, hm]
    · intro _
      simp [_process_message, hm]
  | err e =>
    have hm : mainBody env = ([Ev.existsCheck (ResB.ok true), Ev.ackCall (Res.err e)],
        Option.some e) := by
      simp [mainBody, h, ha]
    cases e with
    | conn =>
      refine ⟨?_, ?_, ?_⟩
      · intro r0
        simp [_process_message, hm]
      · simp [_process_message, hm]
      · intro hcontra
        exact Res.noConfusion hcontra
    | other =>
      by_cases hd : delivery_count ≥ max_retries
      · cases hq : dlqBody env with
        | mk t2 r2 =>
          have htrace : (_process_message env delivery_count max_retries).1 =
              [Ev.existsCheck (ResB.ok true), Ev.ackCall (Res.err Exc.other)] ++ t2 := by
            simp [_process_message, hm, hd, hq]
          refine ⟨?_, ?_, ?_⟩
          · intro r0 hr0
            rw [htrace] at hr0
            rcases List.mem_append.mp hr0 with h3 | h3
            · simp at h3
            · exact absurd h3 (by
                have := dlqBody_no_handlerRun env r0
                rw [hq] at this
                exact this)
          · rw [htrace]
            exact List.mem_append.mpr (Or.inl (by simp))
          · intro hcontra
            exact Res.noConfusion hcontra
      · refine ⟨?_, ?_, ?_⟩
        · intro r0
          simp [_process_message, hm, hd]
        · simp [_process_message, hm, hd]
        · intro hcontra
          exact Res.noConfusion hcontra

/-- Environment of the C8 witness: the dedup key exists and every broker
call succeeds. -/
def envDedupHit : Env :=
  ⟨ResB.ok true, Res.ok, true, Res.ok, Res.ok, Res.ok,
    Res.ok, Res.ok, Res.ok, Res.ok⟩

/-- C8 witness: on a dedup hit with a healthy broker, the dispatch is
exactly dedup-check then ack, with no handler run. -/
theorem dedup_skip_acks_witness :
    (∀ r, Ev.handlerRun r ∉ (_process_message envDedupHit 2 3).1)
  ∧ _process_message envDedupHit 2 3 =
      ([Ev.existsCheck (ResB.ok true), Ev.ackCall Res.ok], Option.none) :=
  ⟨(dedup_skip_acks envDedupHit 2 3 rfl).1,
   (dedup_skip_acks envDedupHit 2 3 rfl).2.2 rfl⟩

/-! ### Steady-state loop backoff model (processor.py `start`, lines 261-350)

One loop iteration is classified by which fault layer it exercises and
whether the in-iteration recovery succeeds; iterations that re-raise
(non-NOGROUP response errors, `CancelledError`) exit the loop and are
not modelled as iterations.  `stepBackoff` returns the next
`reconnect_backoff` value together with the sleeps the iteration
performs, mirroring the source exactly: connection-loss layers sleep the
current backoff *then* double it (capped at 30) and reset it to 1 when
`_recover_after_reconnect` succeeds; the generic layer sleeps a constant
1 s and leaves the backoff untouched. -/

inductive IterOut where
  | ok : IterOut
  | nogroupOk : IterOut
  | nogroupConnRecOk : IterOut
  | nogroupConnRecFail : IterOut
  | connRecOk : IterOut
  | connRecFail : IterOut
  | generic : IterOut
deriving DecidableEq

/-- One iteration of the `while self._running` loop: next backoff and the
sleeps performed. -/
def stepBackoff (b : Nat) : IterOut → Nat × List Nat
  | IterOut.ok => (1, [])
  | IterOut.nogroupOk => (1, [])
  | IterOut.nogroupConnRecOk => (1, [b])
  | IterOut.nogroupConnRecFail => (min (b * 2) 30, [b])
  | IterOut.connRecOk => (1, [b])
  | IterOut.connRecFail => (min (b * 2) 30, [b])
  | IterOut.generic => (b, [1])

/-- Run of the steady-state loop from backoff `b`: final backoff and the
concatenated sleep trace. -/
def runLoop (b : Nat) : List IterOut → Nat × List Nat
  | [] => (b, [])
  | o :: rest =>
    ((runLoop (stepBackoff b o).1 rest).1,
      (stepBackoff b o).2 ++ (runLoop (stepBackoff b o).1 rest).2)

/-- Boolean check that a list of sleep durations is non-decreasing. -/
def nondecB : List Nat → Bool
  | [] => true
  | [_] => true
  | a :: b :: t => Nat.ble a b && nondecB (b :: t)

/-- Iterations that hit a connection-loss layer and whose recovery fails
(the backoff keeps growing across them). -/
def isFailRec : IterOut → Bool
  | IterOut.nogroupConnRecFail => true
  | IterOut.connRecFail => true
  | _ => false

theorem runLoop_cap : ∀ (outs : List IterOut) (b : Nat), 1 ≤ b → b ≤ 30 →
    ∀ s ∈ (runLoop b outs).2, 1 ≤ s ∧ s ≤ 30 := by
  intro outs
  induction outs with
  | nil => intro b h1 h2 s hs; simp [runLoop] at hs
  | cons o rest ih =>
    intro b h1 h2 s hs
    have hmin1 : 1 ≤ min (b * 2) 30 := by omega
    have hmin2 : min (b * 2) 30 ≤ 30 := by omega
    cases o with
    | ok =>
      simp [runLoop, stepBackoff] at hs
      exact ih 1 le_rfl (by omega) s hs
    | nogroupOk =>
      simp [runLoop, stepBackoff] at hs
      exact ih 1 le_rfl (by omega) s hs
    | nogroupConnRecOk =>
      simp [runLoop, stepBackoff] at hs
      rcases hs with rfl | hs
      · exact ⟨h1, h2⟩
      · exact ih 1 le_rfl (by omega) s hs
    | nogroupConnRecFail =>
      simp [runLoop, stepBackoff] at hs
      rcases hs with rfl | hs
      · exact ⟨h1, h2⟩
      · exact ih _ hmin1 hmin2 s hs
    | connRecOk =>
      simp [runLoop, stepBackoff] at hs
      rcases hs with rfl | hs
      · exact ⟨h1, h2⟩
      · exact ih 1 le_rfl (by omega) s hs
    | connRecFail =>
      simp [runLoop, stepBackoff] at hs
      rcases hs with rfl | hs
      · exact ⟨h1, h2⟩
      · exact ih _ hmin1 hmin2 s hs
    | generic =>
      simp [runLoop, stepBackoff] at hs
      rcases hs with rfl | hs
      · exact ⟨le_rfl, by omega⟩
      · exact ih b h1 h2 s hs

theorem runLoop_fail_mono : ∀ (outs : List IterOut) (b : Nat), 1 ≤ b → b ≤ 30 →
    (∀ o ∈ outs, isFailRec o = true) →
    nondecB (runLoop b outs).2 = true ∧ ∀ s ∈ (runLoop b outs).2, b ≤ s := by
  intro outs
  induction outs with
  | nil =>
    intro b h1 h2 _
    exact ⟨rfl, by intro s hs; simp [runLoop] at hs⟩
  | cons o rest ih =>
    intro b h1 h2 hall
    have ho := hall o (List.mem_cons_self o rest)
    have hstep : stepBackoff b o = (min (b * 2) 30, [b]) := by
      cases o <;> simp [isFailRec] at ho <;> rfl
    have hble : b ≤ min (b * 2) 30 := by omega
    have hmin1 : 1 ≤ min (b * 2) 30 := by omega
    have hmin2 : min (b * 2) 30 ≤ 30 := by omega
    have hrest := ih (min (b * 2) 30) hmin1 hmin2
      (fun o2 ho2 => hall o2 (List.mem_cons_of_mem o ho2))
    have htr : (runLoop b (o :: rest)).2 = b :: (runLoop (min (b * 2) 30) rest).2 := by
      simp [runLoop, hstep]
    constructor
    · rw [htr]
      cases hss : (runLoop (min (b * 2) 30) rest).2 with
      | nil => rfl
      | cons s1 stail =>
        have hs1 : min (b * 2) 30 ≤ s1 := by
          apply hrest.2
          rw [hss]
          exact List.mem_cons_self s1 stail
        have hmono := hrest.1
        rw [hss] at hmono
        simp only [nondecB, Bool.and_eq_true]
        refine ⟨by rw [Nat.ble_eq]; omega, hmono⟩
    · intro s hs
      rw [htr] at hs
      rcases List.mem_cons.mp hs with rfl | hs
      · exact le_rfl
      · exact le_trans hble (hrest.2 s hs)

/-- C5 (amended): across a burst of connection-loss iterations whose
recovery attempts all fail, the sleeps are non-decreasing and start at
the initial 1 s; every sleep the loop ever performs (from a backoff in
range) is between 1 s and the 30 s cap; and a successful iteration
resets the backoff to 1 s and sleeps not at all.  (Mixing in a Layer-4
generic-error iteration, or an iteration whose recovery succeeds, can
shrink the next sleep — see the counterexample.) -/
theorem backoff_monotone_capped (outs : List IterOut) (b : Nat) :
    ((∀ o ∈ outs, isFailRec o = true) →
        nondecB (runLoop 1 outs).2 = true
      ∧ (outs ≠ [] → (runLoop 1 outs).2.head? = Option.some 1))
  ∧ (1 ≤ b → b ≤ 30 → ∀ s ∈ (runLoop b outs).2, 1 ≤ s ∧ s ≤ 30)
  ∧ stepBackoff b IterOut.ok = (1, []) := by
  refine ⟨?_, ?_, ?_⟩
  · intro hall
    refine ⟨(runLoop_fail_mono outs 1 le_rfl (by omega) hall).1, ?_⟩
    intro hne
    cases outs with
    | nil => exact absurd rfl hne
    | cons o rest =>
      have ho := hall o (List.mem_cons_self o rest)
      have hstep : stepBackoff 1 o = (min (1 * 2) 30, [1]) := by
        cases o <;> simp [isFailRec] at ho <;> rfl
      simp [runLoop, hstep]
  · intro h1 h2 s hs
    exact runLoop_cap outs b h1 h2 s hs
  · rfl

/-- C5 counterexample: three consecutive failing iterations — two
connection losses with failed recovery then a Layer-4 generic error —
sleep 1 s, 2 s, then 1 s again: the sleep sequence of a burst of failing
iterations is *not* non-decreasing as the claim states. -/
theorem backoff_monotone_cex :
    (runLoop 1 [IterOut.connRecFail, IterOut.connRecFail, IterOut.generic]).2 = [1, 2, 1]
  ∧ nondecB [1, 2, 1] = false := by decide

/-- C5 witness: a pure failed-recovery burst from a fresh backoff sleeps
monotonically. -/
theorem backoff_monotone_capped_witness :
    nondecB (runLoop 1 [IterOut.connRecFail, IterOut.connRecFail]).2 = true :=
  ((backoff_monotone_capped [IterOut.connRecFail, IterOut.connRecFail] 1).1
    (by decide)).1

/-! ### MongoDB phase of `_connect` (processor.py lines 163-208) -/

/-- Outcome of one MongoDB connection attempt (client construction plus
the `ping` command): success, a `ConfigurationError`, or a transient
connectivity error (`ConnectionFailure`, `ServerSelectionTimeoutError`,
`OSError`). -/
inductive MongoOutcome where
  | ok : MongoOutcome
  | configErr : MongoOutcome
  | transient : MongoOutcome
deriving DecidableEq

/-- Observable steps of the MongoDB phase. -/
inductive CEv where
  | factory : CEv
  | close : CEv
  | sleep (n : Nat) : CEv
  | raiseConfig : CEv
  | connected : CEv
deriving DecidableEq

/-- The `while True` MongoDB loop of `_connect`, with
`startup_backoff` freshly reset to 1 when the phase begins: each
attempt calls the client factory; success breaks out; a configuration
error propagates immediately; a transient error closes the
just-created client, sleeps the current backoff, doubles it (capped at
30 s) and retries. -/
def mongoConnectPhase (startup_backoff : Nat) : List MongoOutcome → List CEv
  | [] => []
  | MongoOutcome.ok :: _ => [CEv.factory, CEv.connected]
  | MongoOutcome.configErr :: _ => [CEv.factory, CEv.raiseConfig]
  | MongoOutcome.transient :: rest =>
    CEv.factory :: CEv.close :: CEv.sleep startup_backoff ::
      mongoConnectPhase (min (startup_backoff * 2) 30) rest

/-- C6: a configuration error on the first MongoDB attempt propagates at
once — one factory call, no sleep, no retry regardless of what would
come after; a transient error instead closes the first client, sleeps
exactly once for the initial 1 s backoff and runs the factory again; in
particular `[transient, ok]` gives factory-close-sleep(1)-factory-
connected, the scenario of the startup tests. -/
theorem mongo_connect_phase_behavior (rest : List MongoOutcome) :
    mongoConnectPhase 1 (MongoOutcome.configErr :: rest) = [CEv.factory, CEv.raiseConfig]
  ∧ mongoConnectPhase 1 (MongoOutcome.transient :: rest) =
      [CEv.factory, CEv.close, CEv.sleep 1] ++ mongoConnectPhase 2 rest
  ∧ mongoConnectPhase 1 [MongoOutcome.transient, MongoOutcome.ok] =
      [CEv.factory, CEv.close, CEv.sleep 1, CEv.factory, CEv.connected] :=
  ⟨rfl, rfl, rfl⟩

/-! ### `subst-sdk-requirements.py` -/

/-- Python `p in s` on character lists (`p` the needle). -/
def chContains (p : List Char) : List Char → Bool
  | [] => chPrefixB p []
  | c :: cs => chPrefixB p (c :: cs) || chContains p cs

/-- Python `s.replace(p, r)` on character lists, fuelled by the length of
the subject so the recursion is structural; each step either copies one
character or consumes one occurrence of the needle. -/
def chReplace (p r : List Char) : Nat → List Char → List Char
  | _, [] => []
  | 0, l => l
  | fuel + 1, c :: cs =>
    if chPrefixB p (c :: cs) then r ++ chReplace p r fuel (List.drop (p.length - 1) cs)
    else c :: chReplace p r fuel cs

/-- Python `line.strip()`. -/
def pyStrip (s : String) : String := String.mk (chStrip s.data)

/-- Python `p in line`. -/
def pyContains (s p : String) : Bool := chContains p.data s.data

/-- Python `line.replace(p, r)`. -/
def pyReplace (s p r : String) : String :=
  String.mk (chReplace p.data r.data s.data.length s.data)

/-- The literal `placeholder` of the script. -/
def placeholderGH : String := "$\x7bGITHUB_TOKEN\x7d"

/-- The literal the stripped line must start with. -/
def gitHttpsLit : String := "git+https"

/-- The output-writing loop of `main` in `subst-sdk-requirements.py`
(lines 15-19): for each input line, write the line with the placeholder
replaced by the token iff the stripped line starts with `git+https` and
the raw line contains the placeholder; write nothing otherwise. -/
def subst_requirements (token : String) : List String → List String
  | [] => []
  | line :: rest =>
    if pyStartsWith (pyStrip line) gitHttpsLit && pyContains line placeholderGH then
      pyReplace line placeholderGH token :: subst_requirements token rest
    else
      subst_requirements token rest

/-- C10: the script's output is exactly the filter of the input down to
the lines whose stripped form starts with `git+https` and which contain
the placeholder, each mapped to its placeholder-to-token replacement;
every other line is omitted. -/
theorem subst_requirements_filter (token : String) (lines : List String) :
    subst_requirements token lines =
      (lines.filter (fun line =>
        pyStartsWith (pyStrip line) gitHttpsLit && pyContains line placeholderGH)).map
        (fun line => pyReplace line placeholderGH token) := by
  induction lines with
  | nil => rfl
  | cons line rest ih =>
    by_cases hc : (pyStartsWith (pyStrip line) gitHttpsLit
        && pyContains line placeholderGH) = true
    · simp [subst_requirements, List.filter_cons, hc, ih]
    · simp only [Bool.not_eq_true] at hc
      simp [subst_requirements, List.filter_cons, hc, ih]
